import Mathlib

/-!
Shallow embedding of the `aw_nas` repository pieces under verification:

* `src/aw_nas/hardware/compiler/dpu.py` — the `DPUCompiler` hardware
  backend that chains a PyTorch-to-Caffe conversion, the `deephi_fix`
  fixed-point calibration tool and the `dnnc` vendor compiler.  The
  side-effecting orchestration is modelled as a trace of `Event`s; file
  contents are modelled as lists of lines; the sed/format massaging is
  modelled character-exactly.

* `src/examples/research/bbssp/ssp_plugin/ssp_plugin.py` — the FBNet-style
  plugin: registered block primitives, the `CosineDecayLR` schedule, the
  `LatencyObjective` loss/reward and the `weights_init` initializer.
  Real-valued float arithmetic is modelled over `ℝ`.
-/

namespace AwNas

/-! ### Generic string machinery (sed and Python `str.replace` semantics) -/

/-- Whether `pat` is an initial segment of `l` (character lists). -/
def isPre : List Char → List Char → Bool
  | [], _ => true
  | _ :: _, [] => false
  | p :: ps, c :: cs => p == c && isPre ps cs

/-- Whether `pat` occurs as a contiguous substring of `l` (character lists). -/
def containsSub (pat : List Char) : List Char → Bool
  | [] => pat.isEmpty
  | c :: cs => isPre pat (c :: cs) || containsSub pat cs

/-- Whether string `pat` occurs as a substring of `s`. -/
def strContains (s pat : String) : Bool :=
  containsSub pat.data s.data

/-- Replace the first (leftmost) occurrence of `pat` by `rep`, as character
lists.  This is the semantics of `sed s/pat/rep/` (no `g` flag) on one line. -/
def replaceFirstL (pat rep : List Char) : List Char → List Char
  | [] => []
  | c :: cs =>
    if isPre pat (c :: cs) then rep ++ (c :: cs).drop pat.length
    else c :: replaceFirstL pat rep cs

/-- Replace the first occurrence of `pat` in `s` by `rep`. -/
def strReplaceFirst (s pat rep : String) : String :=
  ⟨replaceFirstL pat.data rep.data s.data⟩

/-- Worker for `replaceAllL`, structurally recursive on a fuel that starts
at the length of the scanned list: a non-empty pattern consumes at least
one character per step, so the fuel never runs out on the intended calls. -/
def replaceAllGo (rep pat : List Char) : Nat → List Char → List Char
  | _, [] => []
  | 0, l => l
  | fuel + 1, c :: cs =>
    match pat with
    | [] => c :: replaceAllGo rep [] fuel cs
    | p :: ps =>
      if isPre (p :: ps) (c :: cs) then
        rep ++ replaceAllGo rep (p :: ps) fuel ((c :: cs).drop (p :: ps).length)
      else c :: replaceAllGo rep (p :: ps) fuel cs

/-- Replace every (non-overlapping, leftmost-first) occurrence of `pat` by
`rep`, as character lists.  This is the semantics of Python `str.replace`. -/
def replaceAllL (rep pat l : List Char) : List Char :=
  replaceAllGo rep pat l.length l

/-- Replace every occurrence of `pat` in `s` by `rep` (Python `str.replace`). -/
def strReplaceAll (s pat rep : String) : String :=
  ⟨replaceAllL rep.data pat.data s.data⟩

/-- Join a list of lines into file content, each line followed by a newline. -/
def unlines (ls : List String) : String :=
  String.join (ls.map (fun l => l ++ "\n"))

/-! ### `dpu.py`: the data-layer template -/

/-- The body lines of the module constant `CAFFE_DATA_LAYER_STR` of
`dpu.py` (braces written as hex escapes). -/
def caffeDataLayerLines : List String :=
  ["layer \x7b",
   "  name: \"data\"",
   "  type: \"ImageData\"",
   "  top: \"data\"",
   "  top: \"label\"",
   "  transform_param \x7b",
   "    crop_size: INPUT_SIZE",
   "    mean_value: 103.53",
   "    mean_value: 116.28",
   "    mean_value: 123.675",
   "    use_standard_std: true",
   "  \x7d",
   "  image_data_param \x7b",
   "    source: \"/datasets/imgNet/imagenet1k_valid_source.txt\"",
   "    root_folder: \"/datasets/imgNet/imagenet1k_valid_dataset/\"",
   "    batch_size: 50",
   "    new_height: 256",
   "    new_width: 256",
   "  \x7d",
   "\x7d"]

/-- The module constant `CAFFE_DATA_LAYER_STR` of `dpu.py`: a leading
newline, then the layer block, each line newline-terminated. -/
def CAFFE_DATA_LAYER_STR : String :=
  "\n" ++ unlines caffeDataLayerLines

/-- The data-layer header actually prepended by `_caffe_fix`:
`CAFFE_DATA_LAYER_STR.replace("INPUT_SIZE", str(input_size))`. -/
def caffeTemplate (input_size : Nat) : String :=
  strReplaceAll CAFFE_DATA_LAYER_STR "INPUT_SIZE" (toString input_size)

/-! ### `dpu.py`: sed massaging done by `_caffe_fix`

`_caffe_fix` pipes the prototxt through
`sed /ceil_mode/d | sed /input_dim/d | sed /input:/d | sed s/"blob1"/"data"/`.
Each `sed /pat/d` deletes the lines containing `pat`; the substitution
(no `g` flag) rewrites only the first occurrence on each line. -/

/-- First sed stage: delete the lines containing `ceil_mode`. -/
def sedStage1 (ls : List String) : List String :=
  ls.filter (fun l => !(strContains l "ceil_mode"))

/-- Second sed stage: delete the lines containing `input_dim`. -/
def sedStage2 (ls : List String) : List String :=
  ls.filter (fun l => !(strContains l "input_dim"))

/-- Third sed stage: delete the lines containing `input:`. -/
def sedStage3 (ls : List String) : List String :=
  ls.filter (fun l => !(strContains l "input:"))

/-- Fourth sed stage: on each line replace the first occurrence of
`"blob1"` (quotes included) by `"data"`. -/
def sedStage4 (ls : List String) : List String :=
  ls.map (fun l => strReplaceFirst l "\"blob1\"" "\"data\"")

/-- The whole sed pipeline run by `_caffe_fix` on the prototxt lines. -/
def sedPipeline (ls : List String) : List String :=
  sedStage4 (sedStage3 (sedStage2 (sedStage1 ls)))

/-- The final content `_caffe_fix` writes to `prototxt + ".tofix.prototxt"`:
the instantiated data-layer template followed by the sed-processed lines. -/
def caffeFixContent (protoLines : List String) (input_size : Nat) : String :=
  caffeTemplate input_size ++ unlines (sedPipeline protoLines)

/-! ### `dpu.py`: vendor command lines -/

/-- The `deephi_fix fix` command line built by `_caffe_fix`. -/
def deephiFixCmd (calib_iter gpu : Int) (model weights output_dir : String) : String :=
  "/home/foxfi/projects/caffe_dev/build/tools/deephi_fix fix -calib_iter " ++
    toString calib_iter ++ " -gpu " ++ toString gpu ++ " -model " ++ model ++
    " -weights " ++ weights ++ " -output_dir " ++ output_dir

/-- The `modify_for_dnnc.py` post-processing command built by `_caffe_fix`. -/
def modifyDnncCmd (path : String) : String :=
  "python modify_for_dnnc.py " ++ path

/-- The `dnnc` command line built by `_run_dnnc` (the double space before
`--output_dir` is in the source format string). -/
def dnncCmd (name prototxt caffemodel output_dir dcf mode : String)
    (debug : Bool) : String :=
  "dnnc --mode " ++ mode ++ " --cpu_arch arm64 --save_kernel --prototxt " ++
    prototxt ++ " --caffemodel " ++ caffemodel ++ "  --output_dir " ++
    output_dir ++ " --dcf " ++ dcf ++ " --net_name " ++ name ++
    (if debug then " --dump=all" else "")

/-! ### `dpu.py`: the `DPUCompiler` class -/

/-- The instance attributes stored by `DPUCompiler.__init__`. -/
structure DPUConf where
  dcf : String
  mode : String
  calib_iter : Int
  gpu : Int
  input_size : Nat
  debugOutput : Bool
  deriving DecidableEq, Repr

/-- Modelled from the spec: `aw_nas.utils.exception.expect` is repository
code not under `src/`; per its uses it raises the given exception class with
the given message when the condition is false, and otherwise does nothing.
The exception is modelled as the error message carried by `Except`. -/
def expectRaise (cond : Bool) (msg : String) : Except String Unit :=
  if cond then Except.ok () else Except.error msg

/-- `DPUCompiler.__init__(dcf, mode, calib_iter, gpu, input_size)`:
checks the two `expect` guards then stores the attributes.  The
`_debug_output` attribute (computed from the log level) is passed in as
`debugOutput`. -/
def DPUCompiler_init (dcf : Option String) (mode : String)
    (calib_iter gpu : Int) (input_size : Option Nat) (debugOutput : Bool) :
    Except String DPUConf := do
  _ ← expectRaise dcf.isSome "must specificy dcf file"
  _ ← expectRaise input_size.isSome "must specificy `input_size`"
  pure ⟨dcf.getD "", mode, calib_iter, gpu, input_size.getD 0, debugOutput⟩

/-- Observable side effects of a `DPUCompiler` run.  `trans_net`,
`save_prototxt`, `save_caffemodel` are third-party `pytorch_to_caffe`
calls; `shell` is `subprocess.check_call`; the sed pipeline (a shell call
whose output is redirected into `dst`) is recorded as `sedPipe` followed by
the `writeFile` of its result; `makedir` covers `utils.makedir` and
`os.makedirs`. -/
inductive Event where
  | transNet (net : String) (input_size : Nat) (name : String)
  | makedir (dir : String)
  | savePrototxt (path : String)
  | saveCaffemodel (path : String)
  | sedPipe (src dst : String)
  | writeFile (path content : String)
  | shell (cmd : String)
  | copyFile (src dst : String)
  deriving DecidableEq, Repr

/-- `DPUCompiler._run_pytorch_to_caffe(model, name, output_dir, input_size,
debug)`.  The torch module and the name are both rendered as strings (the
path format `"{}/{}.prototxt".format(output_dir, name)` stringifies `name`).
Returns `(out_proto, out_caffemodel, events)`. -/
def runPytorchToCaffe (model name output_dir : String) (input_size : Nat)
    (_debug : Bool) : String × String × List Event :=
  let out_proto := output_dir ++ "/" ++ name ++ ".prototxt"
  let out_caffemodel := output_dir ++ "/" ++ name ++ ".caffemodel"
  (out_proto, out_caffemodel,
    [Event.transNet model input_size name,
     Event.makedir output_dir,
     Event.savePrototxt out_proto,
     Event.saveCaffemodel out_caffemodel])

/-- `DPUCompiler._caffe_fix(prototxt, caffemodel, output_dir, gpu,
calib_iter, input_size, debug)`.  `protoLines` is the content (as lines) of
the prototxt file being fixed; the sed redirect writes the pipelined lines,
then Python rewrites the file with the data-layer template prepended.
Returns `(mod_output_prototxt, output_caffemodel, events)`. -/
def caffeFix (prototxt caffemodel output_dir : String) (gpu calib_iter : Int)
    (input_size : Nat) (protoLines : List String) :
    String × String × List Event :=
  let input_prototxt := prototxt ++ ".tofix.prototxt"
  let mod_output_prototxt := output_dir ++ "/deploy_dnnc.prototxt"
  let output_caffemodel := output_dir ++ "/deploy.caffemodel"
  (mod_output_prototxt, output_caffemodel,
    [Event.sedPipe prototxt input_prototxt,
     Event.writeFile input_prototxt (unlines (sedPipeline protoLines)),
     Event.writeFile input_prototxt (caffeFixContent protoLines input_size),
     Event.makedir output_dir,
     Event.shell (deephiFixCmd calib_iter gpu input_prototxt caffemodel output_dir),
     Event.copyFile (output_dir ++ "/deploy.prototxt") mod_output_prototxt,
     Event.shell (modifyDnncCmd mod_output_prototxt)])

/-- `DPUCompiler._run_dnnc(name, prototxt, caffemodel, output_dir, dcf,
mode, debug)`.  Returns `(output_elf, events)`. -/
def runDnnc (name prototxt caffemodel output_dir dcf mode : String)
    (debug : Bool) : String × List Event :=
  (output_dir ++ "/dpu_" ++ name ++ ".elf",
    [Event.makedir output_dir,
     Event.shell (dnncCmd name prototxt caffemodel output_dir dcf mode debug)])

/-- `DPUCompiler.compile(compile_name, net_cfg, result_dir)`.  The final
model constructed from `net_cfg` by `_init_component` is abstracted to its
string rendering `modelStr`; `protoLines` is the content of the prototxt
the converter produces.  Note the source passes `compile_name` first and
the model second into `_run_pytorch_to_caffe`, exactly as embedded here.
Returns the full event trace. -/
def compileEvents (compile_name modelStr result_dir : String) (conf : DPUConf)
    (protoLines : List String) : List Event :=
  let ptc_out_dir := result_dir ++ "/pytorch_to_caffe"
  let (proto, caffemodel, ev1) :=
    runPytorchToCaffe compile_name modelStr ptc_out_dir conf.input_size
      conf.debugOutput
  let fix_out_dir := result_dir ++ "/fix"
  let (proto2, caffemodel2, ev2) :=
    caffeFix proto caffemodel fix_out_dir conf.gpu conf.calib_iter
      conf.input_size protoLines
  let dnnc_out_dir := result_dir ++ "/dnnc_" ++ conf.mode
  let (_, ev3) :=
    runDnnc compile_name proto2 caffemodel2 dnnc_out_dir conf.dcf conf.mode
      conf.debugOutput
  Event.makedir ptc_out_dir :: ev1 ++ ev2 ++ ev3

/-! ### `ssp_plugin.py`: registered primitives and the plugin class -/

/-- The primitive names registered at import time by the module-level
`register_primitive` calls of `ssp_plugin.py`, in source order. -/
def registeredPrimitives : List String :=
  ["Mobileblock_0", "Mobileblock_1", "Mobileblock_2", "Mobileblock_3",
   "Mobileblock_4", "Mobileblock_5", "Mobileblock_6", "Mobileblock_7",
   "Mobileblock_8",
   "Resblock_0", "Resblock_1", "Resblock_2", "Resblock_3", "Resblock_4",
   "Resblock_5", "Resblock_6", "Resblock_7", "Resblock_8",
   "VGGblock_0", "VGGblock_1", "VGGblock_2", "VGGblock_3", "VGGblock_4",
   "VGGblock_5", "VGGblock_6", "VGGblock_7", "VGGblock_8", "VGGblock_9",
   "VGGblock_10", "VGGblock_11", "VGGblock_12"]

/-- The classes `ssp_plugin.py` exposes through its `AwnasPlugin`. -/
inductive PluginComponent where
  | LatencyObjective
  | WeightInitDiffSuperNet
  deriving DecidableEq, Repr

/-- The `FBNetPlugin(AwnasPlugin)` class attributes. -/
structure AwnasPluginDecl where
  name : String
  objective_list : List PluginComponent
  weights_manager_list : List PluginComponent
  deriving DecidableEq, Repr

/-- `FBNetPlugin`: `NAME = "fbnet"`, `objective_list = [LatencyObjective]`,
`weights_manager_list = [WeightInitDiffSuperNet]`. -/
def FBNetPlugin : AwnasPluginDecl :=
  ⟨"fbnet", [PluginComponent.LatencyObjective],
   [PluginComponent.WeightInitDiffSuperNet]⟩

/-! ### `ssp_plugin.py`: `LatencyObjective` -/

/-- A per-layer architecture parameter `arch[0]` of a differentiable
rollout: a 1-dimensional or a 2-dimensional tensor of op weights. -/
inductive ArchTensor where
  | one (v : List ℝ)
  | two (m : List (List ℝ))

/-- The per-layer latency term of the differentiable branch:
`(arch[0] * torch.Tensor(lut_row)).sum()`, divided by `arch[0].shape[0]`
when `arch[0]` is 2-dimensional (broadcasting multiplies every row by the
look-up-table row before summing). -/
noncomputable def archLatency (a : ArchTensor) (row : List ℝ) : ℝ :=
  match a with
  | ArchTensor.one v => (List.zipWith (fun x y => x * y) v row).sum
  | ArchTensor.two m =>
      ((m.map (fun r => (List.zipWith (fun x y => x * y) r row).sum)).sum) /
        (m.length : ℝ)

/-- The `latency_loss` accumulation loop of `LatencyObjective.get_loss`:
`for i_layer, arch in enumerate(cand_net.arch): ... += latency` with the
row `self.latency_lut[i_layer]`. -/
noncomputable def latencyFold : List ArchTensor → List (List ℝ) → ℝ
  | [], _ => 0
  | _ :: _, [] => 0
  | a :: as_, row :: rows => archLatency a row + latencyFold as_ rows

/-- `LatencyObjective.get_loss`: the cross-entropy value `ce` is the result
of `nn.CrossEntropyLoss()(outputs, targets)`; with controller
regularization the loss is multiplied by `alpha` and by the accumulated
latency raised to the power `beta` (`torch.pow`, real exponentiation). -/
noncomputable def getLoss (ce alpha beta : ℝ) (lut : List (List ℝ))
    (arch : List ArchTensor) (add_controller_regularization : Bool)
    (_add_evaluator_regularization : Bool) : ℝ :=
  if add_controller_regularization then
    let latency_loss := latencyFold arch lut
    ce * alpha * latency_loss ^ beta
  else ce

/-- A discrete genotype cell entry; `geno[0][0]` is the primitive name of
the first op tuple `(prim, from_node, to_node)`. -/
abbrev GenoEntry : Type := List (String × Nat × Nat)

/-- The search-space fields `LatencyObjective` reads. -/
structure SearchSpaceDecl where
  cell_layout : List Nat
  cell_shared_primitives : List (List String)

/-- The primitive chosen for layer `i`: `prim_types[i][0][0]`. -/
def primAt (genotypes : List GenoEntry) (i : Nat) : String :=
  ((genotypes.getD i []).getD 0 ("", 0, 0)).1

/-- The shared primitive list of layer `i`:
`ss.cell_shared_primitives[ss.cell_layout[i]]`. -/
def primsAt (ss : SearchSpaceDecl) (i : Nat) : List String :=
  ss.cell_shared_primitives.getD (ss.cell_layout.getD i 0) []

/-- The look-up-table latency of the primitive chosen for layer `i`:
`self.latency_lut[i_layer][prims.index(prim)]`. -/
noncomputable def lutLatencyAt (lut : List (List ℝ)) (ss : SearchSpaceDecl)
    (genotypes : List GenoEntry) (i : Nat) : ℝ :=
  (lut.getD i []).getD (List.indexOf (primAt genotypes i) (primsAt ss i)) 0

/-- Per-row maximum of a latency row, as Python `max` on a non-empty list. -/
noncomputable def rowMax (l : List ℝ) : ℝ :=
  l.foldl max (l.headD 0)

/-- `self._max_lat` computed by `LatencyObjective.__init__`: the sum of the
per-row maxima of the latency look-up table. -/
noncomputable def maxLat (lut : List (List ℝ)) : ℝ :=
  (lut.map rowMax).sum

/-- The `latency_penalty` accumulation loop of `get_reward`: for each of
the first `len(genotypes)//2` entries, add the look-up-table latency of the
chosen primitive. -/
noncomputable def penaltyFold (lut : List (List ℝ)) (ss : SearchSpaceDecl)
    (genotypes : List GenoEntry) : Nat → ℝ
  | 0 => 0
  | n + 1 => penaltyFold lut ss genotypes n + lutLatencyAt lut ss genotypes n

/-- `LatencyObjective.get_reward`: `accPerc` is
`float(accuracy(outputs, targets)[0])` (a percentage); the reward is
`acc = accPerc / 100` alone when `lamb is None`, and otherwise
`acc + lamb * (1/latency_penalty - 1/_max_lat)`. -/
noncomputable def getReward (accPerc : ℝ) (lamb : Option ℝ)
    (lut : List (List ℝ)) (ss : SearchSpaceDecl)
    (genotypes : List GenoEntry) : ℝ :=
  let acc := accPerc / 100
  match lamb with
  | none => acc
  | some l =>
    let num_cells := genotypes.length / 2
    let prim_types := genotypes.take num_cells
    let latency_penalty := penaltyFold lut ss prim_types num_cells
    acc + l * (1 / latency_penalty - 1 / maxLat lut)

/-! ### `ssp_plugin.py`: `CosineDecayLR` -/

/-- The mutable state of a `CosineDecayLR` scheduler (the constructor
arguments plus the `_LRScheduler` bookkeeping it reads and writes). -/
structure CosState where
  T_max : ℤ
  alpha : ℝ
  t_mul : ℝ
  lr_mul : ℝ
  warmup_step : ℤ
  last_restart_step : ℤ
  last_epoch : ℤ
  flag : Bool
  base_lrs : List ℝ
  min_lrs : List ℝ
  rise_lrs : List ℝ

/-- Python `int()` applied to a real value: truncation toward zero. -/
noncomputable def pyInt (x : ℝ) : ℤ :=
  if 0 ≤ x then ⌊x⌋ else ⌈x⌉

/-- `CosineDecayLR.get_lr`: returns the learning rates together with the
updated scheduler state, or `none` when the `assert T_cur >= 0` fails.
The three branches (warmup, cosine, restart bookkeeping) follow the source
line by line; the warmup list comprehension zips `base_lrs`, `min_lrs` and
`rise_lrs` and ignores the `base_lr` component. -/
noncomputable def get_lr (s : CosState) : Option (List ℝ × CosState) :=
  let T_cur := s.last_epoch - s.last_restart_step
  if T_cur < 0 then none
  else
    let base_lrs :=
      if T_cur ≤ s.warmup_step ∧ s.flag = false then
        List.zipWith (fun p r => p.2 + r * (T_cur : ℝ))
          (s.base_lrs.zip s.min_lrs) s.rise_lrs
      else
        s.base_lrs.map (fun b =>
          s.alpha + (b - s.alpha) *
            (1 + Real.cos (Real.pi * (s.last_epoch : ℝ) / (s.T_max : ℝ))) / 2)
    let s1 :=
      if T_cur ≤ s.warmup_step ∧ s.flag = false then
        if T_cur = s.warmup_step then
          { s with last_restart_step := s.last_epoch, flag := true }
        else s
      else s
    let s2 :=
      if T_cur = s1.T_max then
        let new_min_lrs := s1.base_lrs.map (fun b => b * s1.alpha)
        let new_base_lrs := s1.base_lrs.map (fun b => b * s1.lr_mul)
        { s1 with
            last_restart_step := s1.last_epoch,
            min_lrs := new_min_lrs,
            base_lrs := new_base_lrs,
            rise_lrs := List.zipWith (fun b m => (b - m) / (s1.warmup_step : ℝ))
              new_base_lrs new_min_lrs,
            T_max := pyInt ((s1.T_max : ℝ) * s1.t_mul),
            flag := false }
      else s1
    some (base_lrs, s2)

/-! ### `ssp_plugin.py`: `weights_init` -/

/-- The shapes of PyTorch modules `weights_init` distinguishes: the four
leaf classes it special-cases, and any other `nn.Module` with its list of
direct children. -/
inductive PyModule where
  | conv2d (hasBias : Bool)
  | linear (hasBias : Bool)
  | batchNorm2d
  | relu
  | generic (children : List PyModule)

/-- The weight initializations `weights_init` performs, as a trace. -/
inductive InitEvent where
  | convKaimingUniform
  | convBiasConstZero
  | linearNormal
  | linearBiasZero
  deriving DecidableEq, Repr

mutual

/-- `m.modules()`: the module itself followed by all of its descendants in
depth-first order (leaf modules have no children). -/
def modulesList : PyModule → List PyModule
  | PyModule.conv2d b => [PyModule.conv2d b]
  | PyModule.linear b => [PyModule.linear b]
  | PyModule.batchNorm2d => [PyModule.batchNorm2d]
  | PyModule.relu => [PyModule.relu]
  | PyModule.generic cs => PyModule.generic cs :: modulesListOf cs

/-- `modulesList` mapped over a list of children and concatenated. -/
def modulesListOf : List PyModule → List PyModule
  | [] => []
  | m :: ms => modulesList m ++ modulesListOf ms

end

mutual

/-- `weights_init(m, deepth)` with the default `max_depth=2`, which is what
every recursive call in the source uses (`weights_init(m_, deepth)` passes
no third argument).  Returns the trace of initializations. -/
def weightsInit2 (m : PyModule) (deepth : Nat) : List InitEvent :=
  if _h : deepth > 2 then []
  else
    match m with
    | PyModule.conv2d b =>
        InitEvent.convKaimingUniform ::
          (if b then [InitEvent.convBiasConstZero] else [])
    | PyModule.linear b =>
        InitEvent.linearNormal :: (if b then [InitEvent.linearBiasZero] else [])
    | PyModule.batchNorm2d => []
    | PyModule.relu => []
    | PyModule.generic cs =>
        weightsInitList (modulesList (PyModule.generic cs)) (deepth + 1)
termination_by (2 * (3 - deepth), 0)
decreasing_by
  all_goals simp_wf
  all_goals omega

/-- The `for m_ in m.modules(): weights_init(m_, deepth)` loop. -/
def weightsInitList (ms : List PyModule) (deepth : Nat) : List InitEvent :=
  match ms with
  | [] => []
  | m :: rest => weightsInit2 m deepth ++ weightsInitList rest deepth
termination_by (2 * (3 - deepth) + 1, ms.length)
decreasing_by
  all_goals simp_wf
  all_goals omega

end

/-- `weights_init(m, deepth, max_depth)` with an explicit `max_depth`: only
the top-level guard sees it, every recursive call goes through the default
`max_depth=2` (that is, through `weightsInit2`). -/
def weights_init (m : PyModule) (deepth max_depth : Nat) : List InitEvent :=
  if deepth > max_depth then []
  else
    match m with
    | PyModule.conv2d b =>
        InitEvent.convKaimingUniform ::
          (if b then [InitEvent.convBiasConstZero] else [])
    | PyModule.linear b =>
        InitEvent.linearNormal :: (if b then [InitEvent.linearBiasZero] else [])
    | PyModule.batchNorm2d => []
    | PyModule.relu => []
    | PyModule.generic cs =>
        weightsInitList (modulesList (PyModule.generic cs)) (deepth + 1)

mutual

/-- Fuel-indexed interpreter for `weights_init`: each nested self-call
consumes one unit of fuel; `none` means the fuel ran out before the
function returned. -/
def weightsInitFuel : Nat → PyModule → Nat → Nat → Option (List InitEvent)
  | 0, _, _, _ => none
  | fuel + 1, m, deepth, max_depth =>
    if deepth > max_depth then some []
    else
      match m with
      | PyModule.conv2d b =>
          some (InitEvent.convKaimingUniform ::
            (if b then [InitEvent.convBiasConstZero] else []))
      | PyModule.linear b =>
          some (InitEvent.linearNormal ::
            (if b then [InitEvent.linearBiasZero] else []))
      | PyModule.batchNorm2d => some []
      | PyModule.relu => some []
      | PyModule.generic cs =>
          weightsInitListFuel fuel (modulesList (PyModule.generic cs)) (deepth + 1)
termination_by fuel _ _ _ => (fuel, 0, 0)

/-- Fuel-indexed interpreter for the recursion loop (each element is run
with the default `max_depth=2`, as in the source). -/
def weightsInitListFuel : Nat → List PyModule → Nat → Option (List InitEvent)
  | _, [], _ => some []
  | fuel, m :: rest, deepth => do
    let e ← weightsInitFuel fuel m deepth 2
    let es ← weightsInitListFuel fuel rest deepth
    pure (e ++ es)
termination_by fuel ms _ => (fuel, 1, ms.length)

end

/-! ### The content claim C3 attributes to `_caffe_fix` (spec wording)

The claim asserts that every occurrence of `"blob1"` is replaced; the
source `sed s/"blob1"/"data"/` carries no `g` flag, so only the first
occurrence on each line is.  This definition follows the claim's words so
the two can be compared. -/

/-- Content of `prototxt + ".tofix.prototxt"` as claim C3 states it:
template with `INPUT_SIZE` substituted, then the surviving lines with
every occurrence of `"blob1"` replaced by `"data"`. -/
def claimC3Content (protoLines : List String) (input_size : Nat) : String :=
  caffeTemplate input_size ++
    unlines ((protoLines.filter (fun l =>
        !(strContains l "ceil_mode") && !(strContains l "input_dim") &&
          !(strContains l "input:"))).map
      (fun l => strReplaceAll l "\"blob1\"" "\"data\""))

/-! ## Helper lemmas -/

theorem isPre_refl_append (pat y : List Char) : isPre pat (pat ++ y) = true := by
  induction pat with
  | nil => rfl
  | cons p ps ih => simp [isPre, ih]

theorem isPre_extend (pat : List Char) : ∀ l y : List Char,
    isPre pat l = true → isPre pat (l ++ y) = true := by
  induction pat with
  | nil => intro l y _; rfl
  | cons p ps ih =>
      intro l y h
      cases l with
      | nil => simp [isPre] at h
      | cons c cs =>
          simp only [isPre, Bool.and_eq_true] at h
          simp [isPre, h.1, ih cs y h.2]

theorem containsSub_cons (pat : List Char) (c : Char) (cs : List Char)
    (h : containsSub pat cs = true) : containsSub pat (c :: cs) = true := by
  simp [containsSub, h]

theorem containsSub_append_left (pat x l : List Char)
    (h : containsSub pat l = true) : containsSub pat (x ++ l) = true := by
  induction x with
  | nil => simpa using h
  | cons c cs ih => exact containsSub_cons _ _ _ ih

theorem containsSub_here (pat y : List Char) :
    containsSub pat (pat ++ y) = true := by
  cases pat with
  | nil => cases y <;> simp [containsSub, isPre]
  | cons p ps =>
      have h := isPre_refl_append (p :: ps) y
      simp only [List.cons_append] at h ⊢
      simp [containsSub, h]

theorem containsSub_self (pat : List Char) : containsSub pat pat = true := by
  have h := containsSub_here pat []
  simpa using h

theorem strContains_append_left (x l pat : String)
    (h : strContains l pat = true) : strContains (x ++ l) pat = true := by
  unfold strContains at h ⊢
  rw [String.data_append]
  exact containsSub_append_left _ _ _ h

theorem strContains_here (pat y : String) : strContains (pat ++ y) pat = true := by
  unfold strContains
  rw [String.data_append]
  exact containsSub_here _ _

theorem strContains_self (pat : String) : strContains pat pat = true := by
  unfold strContains
  exact containsSub_self _

theorem containsSub_append_right (pat l y : List Char)
    (h : containsSub pat l = true) : containsSub pat (l ++ y) = true := by
  induction l with
  | nil =>
      have hpat : pat = [] := by
        cases pat with
        | nil => rfl
        | cons p ps => simp [containsSub] at h
      subst hpat
      cases y with
      | nil => rfl
      | cons c cs => simp [containsSub, isPre]
  | cons c cs ih =>
      simp only [containsSub, Bool.or_eq_true] at h
      rcases h with h | h
      · have hb := isPre_extend pat (c :: cs) y h
        simp only [List.cons_append] at hb
        simp [containsSub, hb]
      · have hc := ih h
        simp [containsSub, hc]

theorem strContains_append_right (s t pat : String)
    (h : strContains s pat = true) : strContains (s ++ t) pat = true := by
  unfold strContains at h ⊢
  rw [String.data_append]
  exact containsSub_append_right _ _ _ h

/-! ## Claim theorems -/

/-- C1: a successful `DPUCompiler.compile` run executes the three
third-party stages in the fixed order conversion → calibration → vendor
compilation: the converter writes `<name>.prototxt` / `<name>.caffemodel`
under `result_dir/pytorch_to_caffe` (the helper's `name` argument being the
constructed model, see C2), the calibration works under `result_dir/fix`
and hands `deploy_dnnc.prototxt` / `deploy.caffemodel` unchanged to the
`dnnc` stage under `result_dir/dnnc_<mode>`, whose deliverable is
`result_dir/dnnc_<mode>/dpu_<compile_name>.elf`. -/
theorem C1_compile_pipeline (compile_name modelStr result_dir : String)
    (conf : DPUConf) (protoLines : List String) :
    compileEvents compile_name modelStr result_dir conf protoLines =
      [Event.makedir (result_dir ++ "/pytorch_to_caffe"),
       Event.transNet compile_name conf.input_size modelStr,
       Event.makedir (result_dir ++ "/pytorch_to_caffe"),
       Event.savePrototxt
         (result_dir ++ "/pytorch_to_caffe" ++ "/" ++ modelStr ++ ".prototxt"),
       Event.saveCaffemodel
         (result_dir ++ "/pytorch_to_caffe" ++ "/" ++ modelStr ++ ".caffemodel"),
       Event.sedPipe
         (result_dir ++ "/pytorch_to_caffe" ++ "/" ++ modelStr ++ ".prototxt")
         (result_dir ++ "/pytorch_to_caffe" ++ "/" ++ modelStr ++ ".prototxt" ++
           ".tofix.prototxt"),
       Event.writeFile
         (result_dir ++ "/pytorch_to_caffe" ++ "/" ++ modelStr ++ ".prototxt" ++
           ".tofix.prototxt")
         (unlines (sedPipeline protoLines)),
       Event.writeFile
         (result_dir ++ "/pytorch_to_caffe" ++ "/" ++ modelStr ++ ".prototxt" ++
           ".tofix.prototxt")
         (caffeFixContent protoLines conf.input_size),
       Event.makedir (result_dir ++ "/fix"),
       Event.shell
         (deephiFixCmd conf.calib_iter conf.gpu
           (result_dir ++ "/pytorch_to_caffe" ++ "/" ++ modelStr ++ ".prototxt" ++
             ".tofix.prototxt")
           (result_dir ++ "/pytorch_to_caffe" ++ "/" ++ modelStr ++ ".caffemodel")
           (result_dir ++ "/fix")),
       Event.copyFile (result_dir ++ "/fix" ++ "/deploy.prototxt")
         (result_dir ++ "/fix" ++ "/deploy_dnnc.prototxt"),
       Event.shell (modifyDnncCmd (result_dir ++ "/fix" ++ "/deploy_dnnc.prototxt")),
       Event.makedir (result_dir ++ "/dnnc_" ++ conf.mode),
       Event.shell
         (dnncCmd compile_name (result_dir ++ "/fix" ++ "/deploy_dnnc.prototxt")
           (result_dir ++ "/fix" ++ "/deploy.caffemodel")
           (result_dir ++ "/dnnc_" ++ conf.mode) conf.dcf conf.mode
           conf.debugOutput)] ∧
    (runDnnc compile_name (result_dir ++ "/fix" ++ "/deploy_dnnc.prototxt")
        (result_dir ++ "/fix" ++ "/deploy.caffemodel")
        (result_dir ++ "/dnnc_" ++ conf.mode) conf.dcf conf.mode
        conf.debugOutput).1 =
      result_dir ++ "/dnnc_" ++ conf.mode ++ "/dpu_" ++ compile_name ++ ".elf" :=
  ⟨rfl, rfl⟩

/-- C2: `compile` passes `compile_name` as the first positional argument of
`_run_pytorch_to_caffe` (whose first parameter is named `model`) and the
constructed model as the second (parameter `name`); consequently the string
`compile_name` is what `pytorch_to_caffe.trans_net` receives as the network
and the converter's output files are named after the model object. -/
theorem C2_transposed_arguments (compile_name modelStr result_dir : String)
    (conf : DPUConf) (protoLines : List String) :
    (compileEvents compile_name modelStr result_dir conf protoLines).get? 1 =
      some (Event.transNet compile_name conf.input_size modelStr) ∧
    (compileEvents compile_name modelStr result_dir conf protoLines).get? 3 =
      some (Event.savePrototxt
        (result_dir ++ "/pytorch_to_caffe" ++ "/" ++ modelStr ++ ".prototxt")) ∧
    (∀ model name output_dir : String, ∀ input_size : Nat, ∀ debug : Bool,
      (runPytorchToCaffe model name output_dir input_size debug).2.2.get? 0 =
        some (Event.transNet model input_size name)) :=
  ⟨rfl, rfl, fun _ _ _ _ _ => rfl⟩

/-- C9: `DPUCompiler.__init__` raises `ConfigException` exactly when `dcf`
is `None` (first) or `input_size` is `None` (second), and otherwise stores
`dcf`, `mode`, `calib_iter`, `gpu` and `input_size` unchanged. -/
theorem C9_init_validation :
    (∀ (mode : String) (calib_iter gpu : Int) (input_size : Option Nat)
        (dbg : Bool),
      DPUCompiler_init none mode calib_iter gpu input_size dbg =
        Except.error "must specificy dcf file") ∧
    (∀ (d mode : String) (calib_iter gpu : Int) (dbg : Bool),
      DPUCompiler_init (some d) mode calib_iter gpu none dbg =
        Except.error "must specificy `input_size`") ∧
    (∀ (d mode : String) (calib_iter gpu : Int) (i : Nat) (dbg : Bool),
      DPUCompiler_init (some d) mode calib_iter gpu (some i) dbg =
        Except.ok ⟨d, mode, calib_iter, gpu, i, dbg⟩) :=
  ⟨fun _ _ _ _ _ => rfl, fun _ _ _ _ _ => rfl, fun _ _ _ _ _ _ => rfl⟩

/-- C7: the plugin registers exactly the 31 primitives
`Mobileblock_0..8`, `Resblock_0..8`, `VGGblock_0..12` (in that order,
pairwise distinct), and `FBNetPlugin` exposes
`objective_list = [LatencyObjective]` and
`weights_manager_list = [WeightInitDiffSuperNet]`. -/
theorem C7_registered_primitives :
    registeredPrimitives.length = 31 ∧
    registeredPrimitives =
      ((List.range 9).map (fun i => "Mobileblock_" ++ toString i)) ++
        ((List.range 9).map (fun i => "Resblock_" ++ toString i)) ++
        ((List.range 13).map (fun i => "VGGblock_" ++ toString i)) ∧
    registeredPrimitives.Nodup ∧
    FBNetPlugin.objective_list = [PluginComponent.LatencyObjective] ∧
    FBNetPlugin.weights_manager_list = [PluginComponent.WeightInitDiffSuperNet] := by
  refine ⟨rfl, by decide, by decide, rfl, rfl⟩

/-- C8: `_caffe_fix` runs a `deephi_fix fix` shell command that carries the
calibration iteration count, the gpu id, the fixed input prototxt, the
caffemodel and the output directory, and `_run_dnnc` runs a `dnnc` shell
command carrying `--mode`, `--cpu_arch arm64`, `--save_kernel`, the
prototxt, caffemodel, output_dir, dcf and net name, with the suffix
` --dump=all` appended exactly when `debug` is true. -/
theorem C8_vendor_commands (calib_iter gpu : Int)
    (model weights outdir name prototxt caffemodel dcf mode : String)
    (debug : Bool) :
    strContains (deephiFixCmd calib_iter gpu model weights outdir)
        "deephi_fix fix" = true ∧
    strContains (deephiFixCmd calib_iter gpu model weights outdir)
        (toString calib_iter) = true ∧
    strContains (deephiFixCmd calib_iter gpu model weights outdir)
        (toString gpu) = true ∧
    strContains (deephiFixCmd calib_iter gpu model weights outdir) model = true ∧
    strContains (deephiFixCmd calib_iter gpu model weights outdir) weights = true ∧
    strContains (deephiFixCmd calib_iter gpu model weights outdir) outdir = true ∧
    (caffeFix prototxt caffemodel outdir gpu calib_iter 224 []).2.2.get? 4 =
      some (Event.shell
        (deephiFixCmd calib_iter gpu (prototxt ++ ".tofix.prototxt") caffemodel
          outdir)) ∧
    strContains (dnncCmd name prototxt caffemodel outdir dcf mode debug)
        "--mode" = true ∧
    strContains (dnncCmd name prototxt caffemodel outdir dcf mode debug)
        mode = true ∧
    strContains (dnncCmd name prototxt caffemodel outdir dcf mode debug)
        "--cpu_arch arm64" = true ∧
    strContains (dnncCmd name prototxt caffemodel outdir dcf mode debug)
        "--save_kernel" = true ∧
    strContains (dnncCmd name prototxt caffemodel outdir dcf mode debug)
        prototxt = true ∧
    strContains (dnncCmd name prototxt caffemodel outdir dcf mode debug)
        caffemodel = true ∧
    strContains (dnncCmd name prototxt caffemodel outdir dcf mode debug)
        outdir = true ∧
    strContains (dnncCmd name prototxt caffemodel outdir dcf mode debug)
        dcf = true ∧
    strContains (dnncCmd name prototxt caffemodel outdir dcf mode debug)
        name = true ∧
    dnncCmd name prototxt caffemodel outdir dcf mode debug =
      dnncCmd name prototxt caffemodel outdir dcf mode false ++
        (if debug then " --dump=all" else "") := by
  unfold deephiFixCmd dnncCmd
  refine ⟨?_, ?_, ?_, ?_, ?_, ?_, rfl, ?_, ?_, ?_, ?_, ?_, ?_, ?_, ?_, ?_, ?_⟩
  · iterate 9 apply strContains_append_right
    decide
  · iterate 8 apply strContains_append_right
    exact strContains_append_left _ _ _ (strContains_self _)
  · iterate 6 apply strContains_append_right
    exact strContains_append_left _ _ _ (strContains_self _)
  · iterate 4 apply strContains_append_right
    exact strContains_append_left _ _ _ (strContains_self _)
  · iterate 2 apply strContains_append_right
    exact strContains_append_left _ _ _ (strContains_self _)
  · exact strContains_append_left _ _ _ (strContains_self _)
  · iterate 12 apply strContains_append_right
    decide
  · iterate 11 apply strContains_append_right
    exact strContains_append_left _ _ _ (strContains_self _)
  · iterate 10 apply strContains_append_right
    apply strContains_append_left
    decide
  · iterate 10 apply strContains_append_right
    apply strContains_append_left
    decide
  · iterate 9 apply strContains_append_right
    exact strContains_append_left _ _ _ (strContains_self _)
  · iterate 7 apply strContains_append_right
    exact strContains_append_left _ _ _ (strContains_self _)
  · iterate 5 apply strContains_append_right
    exact strContains_append_left _ _ _ (strContains_self _)
  · iterate 3 apply strContains_append_right
    exact strContains_append_left _ _ _ (strContains_self _)
  · iterate 1 apply strContains_append_right
    exact strContains_append_left _ _ _ (strContains_self _)
  · cases debug <;> simp

set_option maxRecDepth 4000 in
/-- C3: the counterexample input: one prototxt line carrying two
occurrences of `"blob1"`; the sed substitution (no `g` flag) rewrites only
the first, so the written content differs from the claim's
all-occurrences version. -/
theorem C3_counterexample :
    caffeFixContent ["  bottom: \"blob1\" top: \"blob1\""] 224 ≠
      claimC3Content ["  bottom: \"blob1\" top: \"blob1\""] 224 := by
  decide

theorem sedPipeline_eq (ls : List String) :
    sedPipeline ls =
      (ls.filter (fun l =>
          !(strContains l "ceil_mode") && !(strContains l "input_dim") &&
            !(strContains l "input:"))).map
        (fun l => strReplaceFirst l "\"blob1\"" "\"data\"") := by
  simp only [sedPipeline, sedStage1, sedStage2, sedStage3, sedStage4,
    List.filter_filter]
  refine congrArg _ (List.filter_congr ?_)
  intro a _
  cases h1 : strContains a "ceil_mode" <;>
    cases h2 : strContains a "input_dim" <;>
      cases h3 : strContains a "input:" <;>
        simp [h1, h2, h3]

/-- C3 (amended): `_caffe_fix` writes to `prototxt + ".tofix.prototxt"`
the concatenation of `CAFFE_DATA_LAYER_STR` with every occurrence of
`INPUT_SIZE` replaced by `str(input_size)`, followed by the original
prototxt content with every line containing `ceil_mode`, `input_dim` or
`input:` deleted and — on each surviving line — the FIRST occurrence of
`"blob1"` replaced by `"data"` (the sed substitution has no `g` flag, so
later occurrences on the same line are kept; see `C3_counterexample`). -/
theorem C3_tofix_content (protoLines : List String) (input_size : Nat) :
    caffeFixContent protoLines input_size =
      strReplaceAll CAFFE_DATA_LAYER_STR "INPUT_SIZE" (toString input_size) ++
        unlines ((protoLines.filter (fun l =>
            !(strContains l "ceil_mode") && !(strContains l "input_dim") &&
              !(strContains l "input:"))).map
          (fun l => strReplaceFirst l "\"blob1\"" "\"data\"")) := by
  unfold caffeFixContent caffeTemplate
  rw [sedPipeline_eq]

theorem wiFuel_correct : ∀ fuel : Nat,
    (∀ (m : PyModule) (deepth : Nat), 3 - deepth < fuel →
      weightsInitFuel fuel m deepth 2 = some (weightsInit2 m deepth)) ∧
    (∀ (ms : List PyModule) (deepth : Nat), 3 - deepth < fuel →
      weightsInitListFuel fuel ms deepth = some (weightsInitList ms deepth)) := by
  intro fuel
  induction fuel with
  | zero =>
      constructor
      · intro m d h
        exact absurd h (by omega)
      · intro ms d h
        exact absurd h (by omega)
  | succ f ih =>
      have hA : ∀ (m : PyModule) (d : Nat), 3 - d < f + 1 →
          weightsInitFuel (f + 1) m d 2 = some (weightsInit2 m d) := by
        intro m d hd
        by_cases hg : d > 2
        · cases m <;> simp [weightsInitFuel, weightsInit2, hg]
        · cases m with
          | conv2d b => simp [weightsInitFuel, weightsInit2, hg]
          | linear b => simp [weightsInitFuel, weightsInit2, hg]
          | batchNorm2d => simp [weightsInitFuel, weightsInit2, hg]
          | relu => simp [weightsInitFuel, weightsInit2, hg]
          | generic cs =>
              have hrec := ih.2 (modulesList (PyModule.generic cs)) (d + 1)
                (by omega)
              simp [weightsInitFuel, weightsInit2, hg, hrec]
      refine ⟨hA, ?_⟩
      intro ms d hd
      induction ms with
      | nil => simp [weightsInitListFuel, weightsInitList]
      | cons m rest ihr =>
          simp [weightsInitListFuel, weightsInitList, hA m d hd, ihr]

/-- C10: `weights_init` terminates on every finite module tree with
self-recursion depth bounded by `max_depth + 1` for the default
`max_depth = 2` that every recursive call uses: a fuel of
`default max_depth + 2 = 4` nested calls always suffices to compute
`weights_init m 0 max_depth`, whatever the top-level `max_depth` and
however deep the module tree, because each self-call increments `deepth`
and the function returns as soon as `deepth` exceeds `max_depth`. -/
theorem C10_weights_init_terminates (m : PyModule) (max_depth : Nat) :
    weightsInitFuel 4 m 0 max_depth = some (weights_init m 0 max_depth) := by
  have hB := (wiFuel_correct 3).2
  cases m with
  | conv2d b => simp [weightsInitFuel, weights_init]
  | linear b => simp [weightsInitFuel, weights_init]
  | batchNorm2d => simp [weightsInitFuel, weights_init]
  | relu => simp [weightsInitFuel, weights_init]
  | generic cs =>
      have hrec := hB (modulesList (PyModule.generic cs)) 1 (by omega)
      simp [weightsInitFuel, weights_init, hrec]

theorem latencyFold_eq_sum (arch : List ArchTensor) (lut : List (List ℝ))
    (h : arch.length ≤ lut.length) :
    latencyFold arch lut =
      ∑ i ∈ Finset.range arch.length,
        archLatency (arch.getD i (ArchTensor.one [])) (lut.getD i []) := by
  induction arch generalizing lut with
  | nil => simp [latencyFold]
  | cons a as ih =>
      cases lut with
      | nil => simp at h
      | cons r rs =>
          have hlen : as.length ≤ rs.length := by simpa using h
          simp only [latencyFold, ih rs hlen, List.length_cons,
            Finset.sum_range_succ']
          simp [List.getD_cons_zero, List.getD_cons_succ]
          ring

/-- C4: `LatencyObjective.get_loss` with controller regularization returns
the cross-entropy loss multiplied by `alpha` and by `L ^ beta`, where `L`
sums over the layers the inner product of `arch[0]` with the layer's
look-up-table row (divided by `arch[0].shape[0]` in the 2-dimensional
case); without it, the plain cross-entropy loss. -/
theorem C4_get_loss (ce alpha beta : ℝ) (lut : List (List ℝ))
    (arch : List ArchTensor) (aer : Bool) (h : arch.length ≤ lut.length) :
    getLoss ce alpha beta lut arch false aer = ce ∧
    getLoss ce alpha beta lut arch true aer =
      ce * alpha *
        (∑ i ∈ Finset.range arch.length,
          archLatency (arch.getD i (ArchTensor.one [])) (lut.getD i [])) ^ beta := by
  refine ⟨rfl, ?_⟩
  simp only [getLoss, if_true]
  rw [latencyFold_eq_sum arch lut h]

theorem C4_get_loss_witness :
    ([ArchTensor.one [1]] : List ArchTensor).length ≤
        ([[2]] : List (List ℝ)).length ∧
      (getLoss 5 3 2 [[2]] [ArchTensor.one [1]] false true = 5 ∧
       getLoss 5 3 2 [[2]] [ArchTensor.one [1]] true true =
         5 * 3 *
           (∑ i ∈ Finset.range ([ArchTensor.one [1]] : List ArchTensor).length,
             archLatency
               (([ArchTensor.one [1]] : List ArchTensor).getD i (ArchTensor.one []))
               (([[2]] : List (List ℝ)).getD i [])) ^ (2 : ℝ)) :=
  ⟨by simp, C4_get_loss 5 3 2 [[2]] [ArchTensor.one [1]] true (by simp)⟩

theorem getD_take {α : Type _} (l : List α) (n i : Nat) (d : α) (h : i < n) :
    (l.take n).getD i d = l.getD i d := by
  induction l generalizing n i with
  | nil => simp
  | cons a as ih =>
      cases n with
      | zero => omega
      | succ m =>
          cases i with
          | zero => simp
          | succ j => simpa using ih m j (by omega)

theorem lutLatencyAt_take (lut : List (List ℝ)) (ss : SearchSpaceDecl)
    (genotypes : List GenoEntry) (n i : Nat) (h : i < n) :
    lutLatencyAt lut ss (genotypes.take n) i = lutLatencyAt lut ss genotypes i := by
  unfold lutLatencyAt primAt
  rw [getD_take genotypes n i [] h]

theorem penaltyFold_eq_sum (lut : List (List ℝ)) (ss : SearchSpaceDecl)
    (genotypes : List GenoEntry) (n : Nat) :
    penaltyFold lut ss genotypes n =
      ∑ i ∈ Finset.range n, lutLatencyAt lut ss genotypes i := by
  induction n with
  | zero => simp [penaltyFold]
  | succ k ih => simp [penaltyFold, Finset.sum_range_succ, ih]

/-- C5: `LatencyObjective.get_reward` returns the top-1 accuracy divided by
100 when `lamb` is `None`, and otherwise
`acc + lamb * (1/latency_penalty - 1/_max_lat)`, where `latency_penalty`
sums the look-up-table latency of the chosen primitive over the first
`len(genotypes)//2` genotype entries and `_max_lat` is the sum of the
per-row maxima from construction. -/
theorem C5_get_reward (accPerc : ℝ) (lut : List (List ℝ))
    (ss : SearchSpaceDecl) (genotypes : List GenoEntry) :
    getReward accPerc none lut ss genotypes = accPerc / 100 ∧
    (∀ lamb : ℝ,
      getReward accPerc (some lamb) lut ss genotypes =
        accPerc / 100 +
          lamb * (1 / (∑ i ∈ Finset.range (genotypes.length / 2),
                    lutLatencyAt lut ss genotypes i) -
                  1 / maxLat lut)) := by
  refine ⟨rfl, fun lamb => ?_⟩
  have hsum : penaltyFold lut ss (genotypes.take (genotypes.length / 2))
      (genotypes.length / 2) =
      ∑ i ∈ Finset.range (genotypes.length / 2),
        lutLatencyAt lut ss genotypes i := by
    rw [penaltyFold_eq_sum]
    refine Finset.sum_congr rfl (fun i hi => ?_)
    exact lutLatencyAt_take lut ss genotypes _ i (Finset.mem_range.mp hi)
  simp only [getReward, hsum]

theorem warmup_zip (a b c : List ℝ) (t : ℝ) (h : b.length ≤ a.length) :
    List.zipWith (fun p r => p.2 + r * t) (a.zip b) c =
      List.zipWith (fun m r => m + r * t) b c := by
  induction a generalizing b c with
  | nil =>
      cases b with
      | nil => simp
      | cons y ys => simp at h
  | cons x xs ih =>
      cases b with
      | nil => simp
      | cons y ys =>
          cases c with
          | nil => simp
          | cons z zs => simp [ih ys zs (by simpa using h)]

/-- C6: whenever `T_cur = last_epoch - last_restart_step` equals `T_max`,
`get_lr` updates the state in one step: base_lrs are multiplied by
`lr_mul`, min_lrs become the old base_lrs times `alpha`, rise_lrs become
`(new base - new min)/warmup_step`, `T_max` becomes `int(T_max * t_mul)`,
`last_restart_step` becomes `last_epoch` and `flag` becomes `False`; and
while `flag` is `False` with `T_cur <= warmup_step`, the returned rates are
the linear warmup values `min_lr + rise_lr * T_cur` instead of the cosine
values. -/
theorem C6_get_lr (s : CosState)
    (hlen : s.min_lrs.length ≤ s.base_lrs.length)
    (h0 : 0 ≤ s.last_epoch - s.last_restart_step) :
    (s.last_epoch - s.last_restart_step = s.T_max →
      (get_lr s).map Prod.snd = some
        ⟨pyInt ((s.T_max : ℝ) * s.t_mul), s.alpha, s.t_mul, s.lr_mul,
         s.warmup_step, s.last_epoch, s.last_epoch, false,
         s.base_lrs.map (fun b => b * s.lr_mul),
         s.base_lrs.map (fun b => b * s.alpha),
         List.zipWith (fun b m => (b - m) / (s.warmup_step : ℝ))
           (s.base_lrs.map (fun b => b * s.lr_mul))
           (s.base_lrs.map (fun b => b * s.alpha))⟩) ∧
    (s.flag = false ∧ s.last_epoch - s.last_restart_step ≤ s.warmup_step →
      (get_lr s).map Prod.fst = some
        (List.zipWith
          (fun m r => m + r * ((s.last_epoch - s.last_restart_step : ℤ) : ℝ))
          s.min_lrs s.rise_lrs)) := by
  have hnot : ¬ (s.last_epoch - s.last_restart_step < 0) := not_lt.2 h0
  constructor
  · intro hT
    simp [get_lr, hnot, hT, apply_ite, ite_self]
    omega
  · rintro ⟨hf, hle⟩
    simp only [get_lr]
    rw [if_neg hnot, if_pos ⟨hle, hf⟩]
    simp only [Option.map_some']
    rw [warmup_zip s.base_lrs s.min_lrs s.rise_lrs _ hlen]

theorem C6_get_lr_witness :
    ((get_lr ⟨2, 1/2, 3, 9/10, 5, 0, 2, true, [1], [0], [4]⟩).map Prod.snd =
      some
        ⟨pyInt (((2 : ℤ) : ℝ) * 3), 1/2, 3, 9/10, 5, 2, 2, false,
         List.map (fun b => b * (9/10)) [1],
         List.map (fun b => b * (1/2)) [1],
         List.zipWith (fun b m => (b - m) / (((5 : ℤ) : ℝ)))
           (List.map (fun b => b * (9/10)) [1])
           (List.map (fun b => b * (1/2)) [1])⟩) ∧
    ((get_lr ⟨7, 1/2, 3, 9/10, 5, 0, 2, false, [1], [0], [4]⟩).map Prod.fst =
      some (List.zipWith (fun m r => m + r * ((((2 : ℤ) - 0 : ℤ)) : ℝ))
        [(0 : ℝ)] [(4 : ℝ)])) :=
  ⟨(C6_get_lr ⟨2, 1/2, 3, 9/10, 5, 0, 2, true, [1], [0], [4]⟩
      (by simp) (by decide)).1 (by decide),
   (C6_get_lr ⟨7, 1/2, 3, 9/10, 5, 0, 2, false, [1], [0], [4]⟩
      (by simp) (by decide)).2 ⟨rfl, by decide⟩⟩

end AwNas
